import Mathlib

/-
Verification development for the primitive_db repository: a shallow
embedding of src/src/primitive_db (core.py, parser.py, decorators.py)
into Lean 4, followed by theorems about the claims of its specification.

Python dictionaries are embedded as association lists with dict update
semantics (replace in place when the key exists, append otherwise);
Python exceptions become an explicit error type threaded through
Except; file-system and cache state become explicit record types.
-/

set_option autoImplicit false

namespace PrimitiveDB

/-- The JSON-scalar values the database stores: int, str, bool. -/
inductive Value where
  | vInt : Int → Value
  | vStr : String → Value
  | vBool : Bool → Value
deriving DecidableEq, Repr

/-- The three supported column types (SUPPORTED_TYPES in core.py). -/
inductive DType where
  | tInt
  | tStr
  | tBool
deriving DecidableEq, Repr

/-- Name of a DType as the Python type-name string used in messages. -/
def DType.pyName : DType → String
  | .tInt => "int"
  | .tStr => "str"
  | .tBool => "bool"

/-- The Python exceptions the code can raise, collapsed to their identity
as caught by the handlers (all the custom errors in core.py are ValueError
subclasses except StorageError). A coercion failure is kept structured so
that the value, target type and column it names are visible. -/
inductive PyError where
  | invalidDataType : String → PyError
  | tableExists : String → PyError
  | tableNotFound : String → PyError
  | parseError : String → PyError
  | valueError : String → PyError
  | coercionError : String → String → String → PyError
  | typeError : String → PyError
  | keyError : String → PyError
  | runtimeError : String → PyError
  | storageError : String → PyError
deriving DecidableEq, Repr

deriving instance DecidableEq for Except

/-- Association-list lookup (first binding wins, as in a Python dict where
keys are unique). -/
def alookup {α : Type} : List (String × α) → String → Option α
  | [], _ => none
  | (k, v) :: rest, key => if k = key then some v else alookup rest key

/-- Dict-style update: replace the binding in place when the key exists,
append it otherwise (Python `d[k] = v`). -/
def aset {α : Type} : List (String × α) → String → α → List (String × α)
  | [], key, v => [(key, v)]
  | (k, w) :: rest, key, v =>
      if k = key then (key, v) :: rest else (k, w) :: aset rest key v

/-- Dict-style deletion of a key (Python `del d[k]`; dict keys are unique,
so removing every binding of the key is the same operation). -/
def aerase {α : Type} : List (String × α) → String → List (String × α)
  | [], _ => []
  | (k, w) :: rest, key =>
      if k = key then aerase rest key else (k, w) :: aerase rest key

/-
Character-level string helpers. The embedding manipulates strings
through their character lists so that every concrete run of the code
evaluates inside the kernel; each helper mirrors the Python str method
named in its comment.
-/

/-- Python str.lower. -/
def strLower (s : String) : String := String.mk (s.data.map Char.toLower)

/-- Python str.strip: whitespace removed from both ends. -/
def strTrim (s : String) : String :=
  String.mk
    (((s.data.dropWhile Char.isWhitespace).reverse.dropWhile Char.isWhitespace).reverse)

/-- Whether a character list starts with the given character. -/
def charsStartWith (l : List Char) (c : Char) : Bool :=
  match l with
  | [] => false
  | x :: _ => x = c

/-- Whether a character list ends with the given character. -/
def charsEndWith (l : List Char) (c : Char) : Bool :=
  match l.getLast? with
  | some x => x = c
  | none => false

/-- The numeric value of an all-digit character list. -/
def digitsToNat (l : List Char) : Nat :=
  l.foldl (fun n c => n * 10 + (c.toNat - 48)) 0

/-- Split a character list around the first occurrence of a separator
sequence, when it occurs at all. -/
def splitFirstChars (sep : List Char) : List Char → Option (List Char × List Char)
  | [] => if sep.isPrefixOf ([] : List Char) then some ([], []) else none
  | c :: rest =>
      if sep.isPrefixOf (c :: rest) then some ([], (c :: rest).drop sep.length)
      else
        match splitFirstChars sep rest with
        | some (l, r) => some (c :: l, r)
        | none => none

/-- Python str.split on a single-character separator. -/
def splitOnChar (c : Char) (l : List Char) : List (List Char) :=
  go [] l
where
  go (acc : List Char) : List Char → List (List Char)
    | [] => [acc.reverse]
    | x :: rest =>
        if x = c then acc.reverse :: go [] rest else go (x :: acc) rest

/-- Python str.split on a single-character separator, on strings. -/
def strSplitOnChar (c : Char) (s : String) : List String :=
  (splitOnChar c s.data).map String.mk

/-- Python str.join. -/
def joinWith (sep : String) : List String → String
  | [] => ""
  | [x] => x
  | x :: y :: rest => x ++ sep ++ joinWith sep (y :: rest)

/-- Split a string around the first occurrence of a separator, when the
separator occurs at all. -/
def findSplit (s sep : String) : Option (String × String) :=
  (splitFirstChars sep.data s.data).map (fun p => (String.mk p.1, String.mk p.2))

/-- A column of a table (core.py Column); construction through mkColumn
performs the validation of Column._validate. -/
structure Column where
  name : String
  dtype : DType
deriving DecidableEq, Repr

/-- Column.__init__ plus Column._validate: a data-type string outside
SUPPORTED_TYPES raises InvalidDataTypeError immediately. -/
def mkColumn (name : String) (dataType : String) : Except PyError Column :=
  if dataType = "int" then .ok ⟨name, .tInt⟩
  else if dataType = "str" then .ok ⟨name, .tStr⟩
  else if dataType = "bool" then .ok ⟨name, .tBool⟩
  else .error (.invalidDataType
    s!"Неподдерживаемый тип: {dataType}. Допустимые типы: [int, str, bool]")

/-- A stored record: the flat column-name-to-value dict of one row. -/
abbrev Rec := List (String × Value)

/-- A table of the schema registry (core.py Table): name, ordered columns
and the auto-increment counter. -/
structure Table where
  name : String
  columns : List Column
  nextId : Int
deriving DecidableEq, Repr

/-- Table.__init__ on the columns argument: when no column is named ID,
an ID:int column is inserted at position 0; otherwise the list is kept
exactly as supplied. -/
def initColumns (cols : List Column) : List Column :=
  if cols.any (fun c => c.name = "ID") then cols
  else ⟨"ID", .tInt⟩ :: cols

/-- Table.__init__ (default next_id is 1). -/
def mkTable (name : String) (cols : List Column) (nextId : Int := 1) : Table :=
  { name := name, columns := initColumns cols, nextId := nextId }

/-- The column index built by Table.__init__ as a dict comprehension: for
duplicate names the last column wins, as in Python. -/
def columnLookup (cols : List Column) (n : String) : Option Column :=
  cols.foldl (fun acc c => if c.name = n then some c else acc) none

/-- Python str() on a stored value. -/
def pyStr : Value → String
  | .vInt i => toString i
  | .vStr s => s
  | .vBool b => if b then "True" else "False"

/-- Python int() on a string literal: optional surrounding whitespace,
optional sign, then at least one decimal digit. -/
def parsePyInt (s : String) : Option Int :=
  match (strTrim s).data with
  | [] => none
  | c :: rest =>
      if c = '-' then
        if rest ≠ [] ∧ rest.all Char.isDigit then some (-(digitsToNat rest : Int))
        else none
      else if c = '+' then
        if rest ≠ [] ∧ rest.all Char.isDigit then some ((digitsToNat rest : Int))
        else none
      else if (c :: rest).all Char.isDigit then
        some ((digitsToNat (c :: rest) : Int))
      else none

/-- Python int() on a stored value (int is the identity, bool maps to 0/1,
str parses or raises ValueError). -/
def pyInt : Value → Option Int
  | .vInt i => some i
  | .vBool b => some (if b then 1 else 0)
  | .vStr s => parsePyInt s

/-- Whether a lowercased string is one of the accepted true tokens. -/
def isTrueToken (s : String) : Bool :=
  strLower s = "true" || strLower s = "1" || strLower s = "yes"

/-- Whether a lowercased string is one of the accepted false tokens. -/
def isFalseToken (s : String) : Bool :=
  strLower s = "false" || strLower s = "0" || strLower s = "no"

/-- The per-column coercion of Table.validate_row_data (the insert path):
bool columns map the case-insensitive tokens true/1/yes and false/0/no
and reject any other string (non-strings pass through unchanged); int
columns apply int(); str columns apply str(). A failure is rewrapped as
the ValueError naming the offending value, the target type and the
column. -/
def coerceInsert (t : DType) (v : Value) (colName : String) : Except PyError Value :=
  match t with
  | .tBool =>
      match v with
      | .vStr s =>
          if isTrueToken s then .ok (.vBool true)
          else if isFalseToken s then .ok (.vBool false)
          else .error (.coercionError s "bool" colName)
      | other => .ok other
  | .tInt =>
      match pyInt v with
      | some i => .ok (.vInt i)
      | none => .error (.coercionError (pyStr v) "int" colName)
  | .tStr => .ok (.vStr (pyStr v))

/-- The per-column coercion inside Table.update: bool columns map a
string to the membership test new_value.lower() in (true, 1, yes), never
failing; int columns apply int() only to strings; str columns apply
str(); any other value is assigned unchanged. -/
def coerceUpdate (t : DType) (v : Value) (colName : String) : Except PyError Value :=
  match t with
  | .tBool =>
      match v with
      | .vStr s => .ok (.vBool (isTrueToken s))
      | other => .ok other
  | .tInt =>
      match v with
      | .vStr s =>
          match parsePyInt s with
          | some i => .ok (.vInt i)
          | none => .error (.coercionError s "int" colName)
      | other => .ok other
  | .tStr => .ok (.vStr (pyStr v))

/-- Table.validate_row_data with skip_id=True (the insert path): checks
the value count against the columns after the first, seeds the row dict
with ID = next_id, then coerces and assigns each value in column order. -/
def validateRowData (tbl : Table) (values : List Value) : Except PyError Rec :=
  let columnsToFill := tbl.columns.drop 1
  if values.length ≠ columnsToFill.length then
    .error (.valueError
      s!"Ожидалось {columnsToFill.length} значений, получено {values.length}")
  else
    (columnsToFill.zip values).foldlM
      (fun (acc : Rec) (cv : Column × Value) => do
        let v ← coerceInsert cv.1.dtype cv.2 cv.1.name
        pure (aset acc cv.1.name v))
      ([("ID", Value.vInt tbl.nextId)] : Rec)

/-- The in-memory state of CachedJsonTableStorage: the on-disk JSON file
per table (already deserialized), the TTL cache keyed by cache key, and
the clock. -/
structure TableStorage where
  files : List (String × List Rec)
  cache : List (String × (List Rec × Nat))
  now : Nat
  ttl : Nat
deriving DecidableEq, Repr

/-- CachedJsonTableStorage._get_cache_key. -/
def cacheKey (tableName : String) : String := "table_" ++ tableName

/-- CachedJsonTableStorage.load: a present and young cache entry is
returned (as a copy) without touching storage; otherwise the file is
read (a missing file is an empty collection) and, when the file existed,
the cache entry is refreshed. -/
def storageLoad (st : TableStorage) (tableName : String) : List Rec × TableStorage :=
  let key := cacheKey tableName
  match alookup st.cache key with
  | some (data, ts) =>
      if st.now - ts < st.ttl then (data, st)
      else loadFile st tableName key
  | none => loadFile st tableName key
where
  loadFile (st : TableStorage) (tableName key : String) : List Rec × TableStorage :=
    match alookup st.files tableName with
    | none => ([], st)
    | some data => (data, { st with cache := aset st.cache key (data, st.now) })

/-- Where the write attempt of a save can fail: not at all, while the
new content is being serialized into the temporary file, or in the
atomic replace (which, being atomic, has no effect when it fails). -/
inductive WriteOutcome where
  | success
  | failWrite
deriving DecidableEq, Repr

/-- CachedJsonTableStorage.save: on success the new content replaces the
table file atomically and the cache entry for the table is deleted; on
any write failure the rollback snapshot is restored (leaving the file
as it was), the temporary file is removed and StorageError is raised,
the cache untouched. -/
def storageSave (st : TableStorage) (tableName : String) (data : List Rec)
    (outcome : WriteOutcome) : Except PyError TableStorage :=
  match outcome with
  | .success =>
      .ok { st with
        files := aset st.files tableName data,
        cache := aerase st.cache (cacheKey tableName) }
  | .failWrite =>
      .error (.storageError s!"Ошибка сохранения таблицы {tableName}")

/-- The metadata schema document {tables: name -> (columns, next_id)}
written by Database._save_metadata. -/
abbrev MetaDoc := List (String × (List Column × Int))

/-- The two files JsonMetadataStorage touches: the canonical
db_meta.json and the .tmp sibling. -/
structure MetaFS where
  canonical : Option MetaDoc
  temp : Option MetaDoc
deriving DecidableEq, Repr

/-- Where JsonMetadataStorage.save can fail: nowhere, during the dump
into the temporary file (which may leave it holding arbitrary prior
content), or in the atomic replace (no effect when it fails). -/
inductive MetaSaveOutcome where
  | ok
  | failDump (written : Option MetaDoc)
  | failReplace
deriving DecidableEq, Repr

/-- JsonMetadataStorage.save: dump into the .tmp file, then atomically
replace the canonical path with it; on any failure the temporary file is
removed (when it exists) and StorageError is raised, the canonical file
untouched. The Except result is paired with the resulting file state so
the failure branches stay observable. -/
def metaSave (fs : MetaFS) (metadata : MetaDoc) (outcome : MetaSaveOutcome) :
    Except PyError Bool × MetaFS :=
  match outcome with
  | .ok => (.ok true, { canonical := some metadata, temp := none })
  | .failDump _ =>
      (.error (.storageError "Ошибка сохранения метаданных"),
       { canonical := fs.canonical, temp := none })
  | .failReplace =>
      (.error (.storageError "Ошибка сохранения метаданных"),
       { canonical := fs.canonical, temp := none })

/-- A parsed where-condition entry: condition.get(operator, =) plus the
comparison value (Condition in the spec glossary). -/
structure CondSpec where
  op : String
  value : Value
deriving DecidableEq, Repr

/-- The conditions dict column -> {operator, value}. -/
abbrev Conds := List (String × CondSpec)

/-- Python numeric view of a value: bool is an int subclass, so bools
and ints compare numerically with each other. -/
def numView : Value → Option Int
  | .vInt i => some i
  | .vBool b => some (if b then 1 else 0)
  | .vStr _ => none

/-- Python equality between stored values: numeric across int/bool,
string against string, False across kinds, never raising. -/
def pyEq (a b : Value) : Bool :=
  match numView a, numView b with
  | some x, some y => x = y
  | _, _ =>
      match a, b with
      | .vStr s, .vStr t => s = t
      | _, _ => false

/-- Python ordering between stored values: numeric across int/bool,
lexicographic between strings, TypeError otherwise. -/
def pyLt (a b : Value) : Except PyError Bool :=
  match numView a, numView b with
  | some x, some y => .ok (decide (x < y))
  | _, _ =>
      match a, b with
      | .vStr s, .vStr t => .ok (decide (s < t))
      | _, _ => .error (.typeError "unorderable types")

/-- Table._compare_values: dispatch on the operator string; an operator
outside the table raises ValueError. -/
def compareValues (actual : Value) (op : String) (expected : Value) :
    Except PyError Bool :=
  if op = "=" then .ok (pyEq actual expected)
  else if op = "!=" then .ok (!pyEq actual expected)
  else if op = "<" then pyLt actual expected
  else if op = ">" then pyLt expected actual
  else if op = "<=" then do
    let gt ← pyLt expected actual
    .ok (!gt)
  else if op = ">=" then do
    let lt ← pyLt actual expected
    .ok (!lt)
  else .error (.valueError s!"Неподдерживаемый оператор: {op}")

/-- Table._matches_conditions: every condition must hold; a column
absent from the record makes the record a non-match immediately. -/
def matchesConditions (record : Rec) : Conds → Except PyError Bool
  | [] => .ok true
  | (colName, spec) :: rest =>
      match alookup record colName with
      | none => .ok false
      | some actual => do
          let b ← compareValues actual spec.op spec.value
          if b then matchesConditions record rest else .ok false

/-- Row._validate type check: bool columns require an actual bool; int
columns use isinstance against int, which a Python bool also satisfies;
str columns require a str. -/
def checkType (t : DType) (v : Value) : Bool :=
  match t, v with
  | .tBool, .vBool _ => true
  | .tBool, _ => false
  | .tInt, .vInt _ => true
  | .tInt, .vBool _ => true
  | .tInt, _ => false
  | .tStr, .vStr _ => true
  | .tStr, _ => false

/-- The column dict {col.name: col} of Table.__init__ and Row.__init__:
first-occurrence key order, last-occurrence column wins. -/
def columnDict (cols : List Column) : List (String × Column) :=
  cols.foldl (fun acc c => aset acc c.name c) []

/-- Row.__init__ validation: every column of the dict must be present in
the record (KeyError otherwise) with a value of the declared type
(ValueError otherwise); extra record keys are not checked. -/
def validateRow (cols : List Column) (record : Rec) : Except PyError Unit :=
  (columnDict cols).foldlM
    (fun _ (nc : String × Column) =>
      match alookup record nc.1 with
      | none => .error (.keyError s!"Отсутствует значение для столбца {nc.1}")
      | some v =>
          if checkType nc.2.dtype v then .ok ()
          else .error (.valueError
            s!"Значение не соответствует типу {nc.2.dtype.pyName} для {nc.1}"))
    ()

/-- The whole-database state: the in-memory schema registry
Database.tables, the table record store, and the metadata document last
written through Database._save_metadata. -/
structure DBState where
  tables : List (String × Table)
  storage : TableStorage
  meta : MetaDoc
deriving DecidableEq, Repr

/-- Table.to_dict for every registered table, as saved by
Database._save_metadata. -/
def metadataOf (tables : List (String × Table)) : MetaDoc :=
  tables.map (fun nt => (nt.1, (nt.2.columns, nt.2.nextId)))

/-- Database.get_table: TableNotFoundError when the name is absent. -/
def getTable (st : DBState) (name : String) : Except PyError Table :=
  match alookup st.tables name with
  | none => .error (.tableNotFound s!"Таблица {name} не найдена")
  | some t => .ok t

/-- Database.create_table: reject an existing name, build the table with
Table.__init__, register it and save the metadata. -/
def dbCreateTable (st : DBState) (name : String) (cols : List Column) :
    Except PyError (Table × DBState) :=
  if (alookup st.tables name).isSome then
    .error (.tableExists s!"Таблица {name} уже существует")
  else
    let tbl := mkTable name cols
    let tables := aset st.tables name tbl
    .ok (tbl, { st with tables := tables, meta := metadataOf tables })

/-- Database.drop_table: remove the schema entry and save the metadata;
the backing record collection is not touched (the TODO at core.py:1056
leaves its deletion unimplemented). -/
def dbDropTable (st : DBState) (name : String) : Except PyError (Bool × DBState) :=
  if (alookup st.tables name).isNone then
    .error (.tableNotFound s!"Таблица {name} не найдена")
  else
    let tables := aerase st.tables name
    .ok (true, { st with tables := tables, meta := metadataOf tables })

/-- Table.insert: validate and coerce the values into a row dict keyed
by next_id, read the row collection back from the dict (a KeyError there
is unreachable because the dict is seeded with ID), append, persist the
full collection, increment next_id and save the metadata; the assigned
ID is returned. -/
def dbInsert (st : DBState) (tableName : String) (values : List Value) :
    Except PyError (Value × DBState) := do
  let tbl ← getTable st tableName
  let rowData ← validateRowData tbl values
  let rowId ← match alookup rowData "ID" with
    | some v => pure v
    | none => .error (.keyError "ID")
  let (current, stor1) := storageLoad st.storage tableName
  let stor2 ← storageSave stor1 tableName (current ++ [rowData]) .success
  let tbl' := { tbl with nextId := tbl.nextId + 1 }
  let tables := aset st.tables tableName tbl'
  .ok (rowId, { tables := tables, storage := stor2, meta := metadataOf tables })

/-- The filtering loop of Table.select: keep the records matching all
conditions, surfacing the first comparison error. -/
def filterMatching (conds : Conds) : List Rec → Except PyError (List Rec)
  | [] => .ok []
  | r :: rest => do
      let b ← matchesConditions r conds
      let kept ← filterMatching conds rest
      .ok (if b then r :: kept else kept)

/-- The materialization loop of Table.select: every surviving record is
validated as a Row, in order. -/
def validateAll (cols : List Column) : List Rec → Except PyError Unit
  | [] => .ok ()
  | r :: rest => do
      let _ ← validateRow cols r
      validateAll cols rest

/-- Table.select: load the collection, filter it when a non-empty
conditions dict is given, then materialize every surviving record as a
validated Row. -/
def tableSelect (st : TableStorage) (cols : List Column) (tableName : String)
    (conds : Option Conds) : Except PyError (List Rec × TableStorage) := do
  let (data, st1) := storageLoad st tableName
  let filtered ← match conds with
    | none => pure data
    | some [] => pure data
    | some cs => filterMatching cs data
  let _ ← validateAll cols filtered
  .ok (filtered, st1)

/-- Whether the update/delete loop treats a record as matched: a missing
or empty where dict selects every record, otherwise
Table._matches_conditions decides. -/
def rowSelected (whereC : Option Conds) (r : Rec) : Except PyError Bool :=
  match whereC with
  | none => .ok true
  | some [] => .ok true
  | some cs => matchesConditions r cs

/-- The assignment loop of Table.update over one record: a set_map key
absent from the column index is skipped silently; a present key has its
value coerced by the update rules and written into the record. -/
def applySet (cols : List Column) (setClause : List (String × Value)) (r : Rec) :
    Except PyError Rec :=
  setClause.foldlM
    (fun (acc : Rec) (kv : String × Value) =>
      match columnLookup cols kv.1 with
      | none => .ok acc
      | some col => do
          let v ← coerceUpdate col.dtype kv.2 kv.1
          .ok (aset acc kv.1 v))
    r

/-- The record loop of Table.update: every record matching the where
clause has the set assignments applied and is counted. -/
def updateRecords (cols : List Column) (setClause : List (String × Value))
    (whereC : Option Conds) : List Rec → Except PyError (List Rec × Nat)
  | [] => .ok ([], 0)
  | r :: rest => do
      let sel ← rowSelected whereC r
      if sel then do
        let r' ← applySet cols setClause r
        let (rest', n) ← updateRecords cols setClause whereC rest
        .ok (r' :: rest', n + 1)
      else do
        let (rest', n) ← updateRecords cols setClause whereC rest
        .ok (r :: rest', n)

/-- Table.update through the database: load the collection, run the
record loop, persist only when at least one record was counted, return
the count. -/
def dbUpdate (st : DBState) (tableName : String) (setClause : List (String × Value))
    (whereC : Option Conds) : Except PyError (Nat × DBState) := do
  let tbl ← getTable st tableName
  let (data, stor1) := storageLoad st.storage tableName
  let (data', count) ← updateRecords tbl.columns setClause whereC data
  if 0 < count then do
    let stor2 ← storageSave stor1 tableName data' .success
    .ok (count, { st with storage := stor2 })
  else
    .ok (count, { st with storage := stor1 })

/-- The keep-filter of Table.delete: retain the records NOT matching all
conditions. -/
def filterNotMatching (conds : Conds) : List Rec → Except PyError (List Rec)
  | [] => .ok []
  | r :: rest => do
      let b ← matchesConditions r conds
      let kept ← filterNotMatching conds rest
      .ok (if b then kept else r :: kept)

/-- Table.delete through the database: load the collection, keep the
non-matching records (none at all when the where dict is missing or
empty), persist only when the count shrank, return the number removed. -/
def dbDelete (st : DBState) (tableName : String) (whereC : Option Conds) :
    Except PyError (Nat × DBState) := do
  let _ ← getTable st tableName
  let (data, stor1) := storageLoad st.storage tableName
  let kept ← match whereC with
    | none => pure ([] : List Rec)
    | some [] => pure ([] : List Rec)
    | some cs => filterNotMatching cs data
  let count := data.length - kept.length
  if 0 < count then do
    let stor2 ← storageSave stor1 tableName kept .success
    .ok (count, { st with storage := stor2 })
  else
    .ok (count, { st with storage := stor1 })

/-- The uniform result value of a command (core.py CommandResult);
execution time and the data dict are display payload and are kept out of
the embedding. -/
structure CommandResult where
  success : Bool
  message : String
deriving DecidableEq, Repr

/-- decorators.handle_db_errors: every exception class raised by the
code is caught (FileNotFoundError, KeyError, PermissionError,
ValueError, json.JSONDecodeError and finally Exception); the handler
prints a message and returns None instead of a result. -/
def handleDbErrors {α : Type} (x : Except PyError α) : Option α :=
  match x with
  | .ok a => some a
  | .error _ => none

/-- CreateTableCommand.execute before decoration: split every col:type
definition on its first colon (ParseError when there is none), build the
validated columns and create the table. -/
def createTableExecuteCore (st : DBState) (tableName : String)
    (columnsDef : List String) : Except PyError (CommandResult × DBState) := do
  let cols ← columnsDef.mapM (fun colDef =>
    match findSplit colDef ":" with
    | none => .error (.parseError s!"Некорректное определение столбца: {colDef}")
    | some (name, colType) => mkColumn (strTrim name) (strTrim colType))
  let (_, st') ← dbCreateTable st tableName cols
  .ok ({ success := true, message := s!"Таблица {tableName} успешно создана" }, st')

/-- DropTableCommand.execute before decoration. -/
def dropTableExecuteCore (st : DBState) (tableName : String) :
    Except PyError (CommandResult × DBState) := do
  let (ok, st') ← dbDropTable st tableName
  .ok ({ success := ok, message := s!"Таблица {tableName} успешно удалена." }, st')

/-- ListTablesCommand.execute before decoration. -/
def listTablesExecuteCore (st : DBState) :
    Except PyError (CommandResult × DBState) :=
  .ok ({ success := true,
         message := s!"Список таблиц: {st.tables.length}" }, st)

/-- InfoTableCommand.execute before decoration: look the table up and
count its stored records. -/
def infoExecuteCore (st : DBState) (tableName : String) :
    Except PyError (CommandResult × DBState) := do
  let _ ← getTable st tableName
  let (data, stor1) := storageLoad st.storage tableName
  .ok ({ success := true,
         message := s!"Таблица: {tableName}, записей: {data.length}" },
       { st with storage := stor1 })

/-- InsertCommand.execute before decoration. -/
def insertExecuteCore (st : DBState) (tableName : String) (values : List Value) :
    Except PyError (CommandResult × DBState) := do
  let (rowId, st') ← dbInsert st tableName values
  .ok ({ success := true,
         message := s!"Запись с ID={pyStr rowId} успешно добавлена" }, st')

/-- SelectCommand.execute before decoration. -/
def selectExecuteCore (st : DBState) (tableName : String) (conds : Option Conds) :
    Except PyError (CommandResult × DBState) := do
  let tbl ← getTable st tableName
  let (rows, stor1) ← tableSelect st.storage tbl.columns tableName conds
  .ok ({ success := true, message := s!"Найдено {rows.length} записей" },
       { st with storage := stor1 })

/-- UpdateCommand.execute before decoration. -/
def updateExecuteCore (st : DBState) (tableName : String)
    (setClause : List (String × Value)) (whereC : Option Conds) :
    Except PyError (CommandResult × DBState) := do
  let (count, st') ← dbUpdate st tableName setClause whereC
  .ok ({ success := true, message := s!"Обновлено {count} записей" }, st')

/-- DeleteCommand.execute before decoration. -/
def deleteExecuteCore (st : DBState) (tableName : String) (whereC : Option Conds) :
    Except PyError (CommandResult × DBState) := do
  let (count, st') ← dbDelete st tableName whereC
  .ok ({ success := true, message := s!"Удалено {count} записей" }, st')

/-- The decorated CreateTableCommand.execute. -/
def createTableExecute (st : DBState) (tableName : String)
    (columnsDef : List String) : Option (CommandResult × DBState) :=
  handleDbErrors (createTableExecuteCore st tableName columnsDef)

/-- The decorated DropTableCommand.execute: confirm_action asks first
and short-circuits to None on a non-affirmative answer. -/
def dropTableExecute (confirmed : Bool) (st : DBState) (tableName : String) :
    Option (CommandResult × DBState) :=
  if confirmed then handleDbErrors (dropTableExecuteCore st tableName) else none

/-- The decorated ListTablesCommand.execute. -/
def listTablesExecute (st : DBState) : Option (CommandResult × DBState) :=
  handleDbErrors (listTablesExecuteCore st)

/-- The decorated InfoTableCommand.execute. -/
def infoExecute (st : DBState) (tableName : String) :
    Option (CommandResult × DBState) :=
  handleDbErrors (infoExecuteCore st tableName)

/-- The decorated InsertCommand.execute. -/
def insertExecute (st : DBState) (tableName : String) (values : List Value) :
    Option (CommandResult × DBState) :=
  handleDbErrors (insertExecuteCore st tableName values)

/-- The decorated SelectCommand.execute. -/
def selectExecute (st : DBState) (tableName : String) (conds : Option Conds) :
    Option (CommandResult × DBState) :=
  handleDbErrors (selectExecuteCore st tableName conds)

/-- The decorated UpdateCommand.execute. -/
def updateExecute (st : DBState) (tableName : String)
    (setClause : List (String × Value)) (whereC : Option Conds) :
    Option (CommandResult × DBState) :=
  handleDbErrors (updateExecuteCore st tableName setClause whereC)

/-- The decorated DeleteCommand.execute with its confirmation gate. -/
def deleteExecute (confirmed : Bool) (st : DBState) (tableName : String)
    (whereC : Option Conds) : Option (CommandResult × DBState) :=
  if confirmed then handleDbErrors (deleteExecuteCore st tableName whereC) else none

/-- The parsed command objects built by CommandParser. -/
inductive ParsedCmd where
  | createTable (name : String) (columnsDef : List String)
  | dropTable (name : String)
  | listTables
  | info (name : String)
  | insertInto (table : String) (values : List Value)
  | selectFrom (table : String) (conds : Option Conds)
  | updateCmd (table : String) (setClause : List (String × Value)) (whereC : Conds)
  | deleteFrom (table : String) (conds : Option Conds)
  | help
  | exitCmd
deriving DecidableEq, Repr

def dquote : Char := Char.ofNat 34

def squote : Char := Char.ofNat 39

/-- Modelled from the spec: ValueParser is imported by
src/src/primitive_db/parser.py from core but its definition is not under
src/. Per the spec (section 4.5) it classifies a token as boolean
(true/false, case-insensitive), integer (optional leading minus sign,
remaining digits), quoted string (strip the matching surrounding
quotes), else raw string. -/
def valueParse (token : String) : Value :=
  if strLower token = "true" then .vBool true
  else if strLower token = "false" then .vBool false
  else
    let chars := token.data
    let isNeg := charsStartWith chars '-'
    let core := if isNeg then chars.drop 1 else chars
    if core ≠ [] && core.all Char.isDigit then
      .vInt (if isNeg then -(digitsToNat core : Int) else (digitsToNat core : Int))
    else if chars.length ≥ 2 &&
        ((charsStartWith chars dquote && charsEndWith chars dquote) ||
         (charsStartWith chars squote && charsEndWith chars squote)) then
      .vStr (String.mk (chars.drop 1).dropLast)
    else .vStr token

/-- The operator table of constants.WHERE_OPERATORS, in its source
order. -/
def whereOperators : List String := ["=", "!=", "<", ">", "<=", ">="]

/-- Modelled from the spec: ConditionParser is imported by
src/src/primitive_db/parser.py from core but its definition is not under
src/. Per the spec (sections 4.5 and 9) it scans the condition string
for the first occurring supported operator substring, in the operator
table order, splits left/right around it into column, operator and
value, and passes the value through the value-literal parser. -/
def conditionParse (s : String) : Except PyError Conds :=
  go whereOperators
where
  go : List String → Except PyError Conds
    | [] => .error (.parseError s!"Некорректный синтаксис условия: {s}")
    | op :: rest =>
        match findSplit s op with
        | some (l, r) => .ok [(strTrim l, ⟨op, valueParse (strTrim r)⟩)]
        | none => go rest

/-- CommandParser._parse_create_table. -/
def parseCreateTable (args : List String) : Except PyError ParsedCmd :=
  if args.length < 2 then
    .error (.parseError "Синтаксис: create_table <имя_таблицы> <столбец1:тип> ...")
  else
    match args with
    | [] => .error (.parseError "Синтаксис: create_table <имя_таблицы> <столбец1:тип> ...")
    | name :: defs => .ok (.createTable name defs)

/-- CommandParser._parse_drop_table. -/
def parseDropTable (args : List String) : Except PyError ParsedCmd :=
  match args with
  | [name] => .ok (.dropTable name)
  | _ => .error (.parseError "Синтаксис: drop_table <имя_таблицы>")

/-- CommandParser._parse_list_tables. -/
def parseListTables (args : List String) : Except PyError ParsedCmd :=
  match args with
  | [] => .ok .listTables
  | _ => .error (.parseError "Синтаксис: list_tables (без аргументов)")

/-- CommandParser._parse_info. -/
def parseInfo (args : List String) : Except PyError ParsedCmd :=
  match args with
  | [name] => .ok (.info name)
  | _ => .error (.parseError "Синтаксис: info <имя_таблицы>")

def insertSyntaxMsg : String :=
  "Синтаксис: insert into <таблица> values (<значение1>, ...)"

/-- CommandParser._parse_insert: expects into <table> values <...>; the
joined tail is stripped of surrounding parentheses, split on commas and
fed through the value parser, empty items skipped. -/
def parseInsert (args : List String) : Except PyError ParsedCmd :=
  if args.length < 4 then .error (.parseError insertSyntaxMsg)
  else
    match args with
    | into :: table :: values :: rest =>
        if strLower into ≠ "into" ∨ strLower values ≠ "values" then
          .error (.parseError insertSyntaxMsg)
        else
          let valuesStr := joinWith " " rest
          let inner :=
            if charsStartWith valuesStr.data '(' && charsEndWith valuesStr.data ')' then
              String.mk (valuesStr.data.drop 1).dropLast
            else valuesStr
          let vals := ((strSplitOnChar ',' inner).map strTrim).filter (· ≠ "")
          .ok (.insertInto table (vals.map valueParse))
    | _ => .error (.parseError insertSyntaxMsg)

def selectSyntaxMsg : String :=
  "Синтаксис: select from <таблица> [where <условие>]"

/-- CommandParser._parse_select. -/
def parseSelect (args : List String) : Except PyError ParsedCmd :=
  if args.length < 2 then .error (.parseError selectSyntaxMsg)
  else
    match args with
    | from_ :: table :: rest =>
        if strLower from_ ≠ "from" then .error (.parseError selectSyntaxMsg)
        else
          match rest with
          | w :: condToks =>
              if args.length > 3 ∧ strLower w = "where" then do
                let conds ← conditionParse (joinWith " " condToks)
                .ok (.selectFrom table (some conds))
              else .ok (.selectFrom table none)
          | [] => .ok (.selectFrom table none)
    | _ => .error (.parseError selectSyntaxMsg)

/-- CommandParser._parse_set_clause: split the joined SET text on
commas; every non-empty item must contain an equals sign and is split on
the first one into column and parsed value. -/
def parseSetClause (parts : List String) : Except PyError (List (String × Value)) :=
  let setStr := joinWith " " parts
  let assignments := ((strSplitOnChar ',' setStr).map strTrim).filter (· ≠ "")
  assignments.foldlM
    (fun acc assignment =>
      match findSplit assignment "=" with
      | some (l, r) => .ok (aset acc (strTrim l) (valueParse (strTrim r)))
      | none => .error (.parseError s!"Некорректное присваивание в SET: {assignment}"))
    []

def updateSyntaxMsg : String :=
  "Синтаксис: update <таблица> set <столбец>=<значение> where <условие>"

/-- CommandParser._parse_update: locate the first set and where
keywords, require 0 < set_idx < where_idx, parse the SET segment between
them and the condition after where. -/
def parseUpdate (args : List String) : Except PyError ParsedCmd :=
  if args.length < 6 then .error (.parseError updateSyntaxMsg)
  else
    let argsLower := args.map strLower
    match argsLower.indexOf? "set" with
    | none => .error (.parseError "Отсутствует SET в команде UPDATE")
    | some setIdx =>
        match argsLower.indexOf? "where" with
        | none => .error (.parseError "Отсутствует WHERE в команде UPDATE")
        | some whereIdx =>
            if ¬(0 < setIdx ∧ setIdx < whereIdx) then
              .error (.parseError "Неправильный порядок в команде UPDATE")
            else
              match args with
              | [] => .error (.parseError updateSyntaxMsg)
              | table :: _ => do
                  let setParts := (args.drop (setIdx + 1)).take (whereIdx - setIdx - 1)
                  let setClause ← parseSetClause setParts
                  let whereParts := args.drop (whereIdx + 1)
                  let cond ← conditionParse (joinWith " " whereParts)
                  .ok (.updateCmd table setClause cond)

def deleteSyntaxMsg : String :=
  "Синтаксис: delete from <таблица> [where <условие>]\nПример: delete from users where ID = 1"

/-- CommandParser._parse_delete: fewer than three arguments are rejected
outright, so a where clause is in fact mandatory even though the syntax
message brackets it as optional. -/
def parseDelete (args : List String) : Except PyError ParsedCmd :=
  if args.length < 3 then .error (.parseError deleteSyntaxMsg)
  else
    match args with
    | from_ :: table :: rest =>
        if strLower from_ ≠ "from" then .error (.parseError deleteSyntaxMsg)
        else
          match rest with
          | w :: condToks =>
              if args.length > 3 ∧ strLower w = "where" then do
                let conds ← conditionParse (joinWith " " condToks)
                .ok (.deleteFrom table (some conds))
              else .ok (.deleteFrom table none)
          | [] => .ok (.deleteFrom table none)
    | _ => .error (.parseError deleteSyntaxMsg)

/-- CommandParser.parse after tokenization: empty input yields no
command; the first token, lowercased, is matched against the pattern
table in its insertion order; afterwards the two-token compounds are
tried; an unknown keyword is a parse failure. -/
def parseCommand (tokens : List String) : Except PyError (Option ParsedCmd) :=
  match tokens with
  | [] => .ok none
  | first :: restTokens =>
      let args := restTokens
      let name := strLower first
      if name = "create_table" then (parseCreateTable args).map some
      else if name = "drop_table" then (parseDropTable args).map some
      else if name = "list_tables" then (parseListTables args).map some
      else if name = "insert" then (parseInsert args).map some
      else if name = "select" then (parseSelect args).map some
      else if name = "update" then (parseUpdate args).map some
      else if name = "delete" then (parseDelete args).map some
      else if name = "info" then (parseInfo args).map some
      else if name = "help" then .ok (some .help)
      else if name = "exit" then .ok (some .exitCmd)
      else
        match restTokens with
        | second :: tail =>
            let compound := strLower (first ++ " " ++ second)
            if compound = "insert into" then (parseInsert tail).map some
            else if compound = "select from" then (parseSelect tail).map some
            else if compound = "delete from" then (parseDelete tail).map some
            else .error (.parseError s!"Неизвестная команда: {name}")
        | [] => .error (.parseError s!"Неизвестная команда: {name}")

/-- Whitespace tokenization; shlex.split agrees with it on quote-free
input such as the command texts examined here. -/
def simpleTokenize (s : String) : List String :=
  (strSplitOnChar ' ' s).filter (· ≠ "")

/-- A sequence of inserts into one table, stopping at the first
failure and collecting the returned IDs in order. -/
def dbInsertMany (t : String) : DBState → List (List Value) →
    Except PyError (List Value × DBState)
  | st, [] => .ok ([], st)
  | st, vs :: rest => do
      let (idv, st₁) ← dbInsert st t vs
      let (ids, st₂) ← dbInsertMany t st₁ rest
      .ok (idv :: ids, st₂)

/-
Concrete states used to evaluate the code on specific inputs.
-/

def emptyStorage : TableStorage := { files := [], cache := [], now := 0, ttl := 300 }

def emptyState : DBState := { tables := [], storage := emptyStorage, meta := [] }

/-- A table on columns ID:int, name:str as created by
create_table t name:str. -/
def nameTable : Table := mkTable "t" [⟨"name", .tStr⟩]

def recAlice : Rec := [("ID", .vInt 1), ("name", .vStr "a")]

def recBob : Rec := [("ID", .vInt 2), ("name", .vStr "b")]

/-- A database holding table t with one stored record. -/
def oneRowState : DBState :=
  { tables := [("t", nameTable)],
    storage := { files := [("t", [recAlice])], cache := [], now := 0, ttl := 300 },
    meta := metadataOf [("t", nameTable)] }

/-- A database holding table t with two stored records. -/
def twoRowState : DBState :=
  { tables := [("t", nameTable)],
    storage := { files := [("t", [recAlice, recBob])], cache := [], now := 0, ttl := 300 },
    meta := metadataOf [("t", nameTable)] }

/-- A table on columns ID:int, flag:bool. -/
def flagTable : Table := mkTable "t" [⟨"flag", .tBool⟩]

def recFlag : Rec := [("ID", .vInt 1), ("flag", .vBool true)]

/-- A database holding the flag table with one stored record. -/
def flagState : DBState :=
  { tables := [("t", flagTable)],
    storage := { files := [("t", [recFlag])], cache := [], now := 0, ttl := 300 },
    meta := metadataOf [("t", flagTable)] }

/-- A table on columns ID:int, age:int. -/
def ageTable : Table := mkTable "people" [⟨"age", .tInt⟩]

def recAge30 : Rec := [("ID", .vInt 1), ("age", .vInt 30)]

def recAge20 : Rec := [("ID", .vInt 2), ("age", .vInt 20)]

def ageStorage : TableStorage :=
  { files := [("people", [recAge30, recAge20])], cache := [], now := 0, ttl := 300 }

def ageConds : Conds := [("age", ⟨">=", .vInt 30⟩)]

/-- The age storage after one load has refreshed the cache. -/
def ageStorageLoaded : TableStorage :=
  { files := [("people", [recAge30, recAge20])],
    cache := [("table_people", ([recAge30, recAge20], 0))], now := 0, ttl := 300 }

/-- A freshly created users table (ID:int, name:str, next_id 1) with no
data file yet. -/
def usersTable : Table := mkTable "users" [⟨"name", .tStr⟩]

def usersState : DBState :=
  { tables := [("users", usersTable)], storage := emptyStorage,
    meta := metadataOf [("users", usersTable)] }

/-- The database state after inserting Alice and Bob into the fresh
users table. -/
def usersTableAfter : Table :=
  { name := "users", columns := [⟨"ID", .tInt⟩, ⟨"name", .tStr⟩], nextId := 3 }

def usersRowsAfter : List Rec :=
  [[("ID", .vInt 1), ("name", .vStr "Alice")],
   [("ID", .vInt 2), ("name", .vStr "Bob")]]

def usersFinalState : DBState :=
  { tables := [("users", usersTableAfter)],
    storage :=
      { files := [("users", usersRowsAfter)], cache := [], now := 0, ttl := 300 },
    meta := [("users", ([⟨"ID", .tInt⟩, ⟨"name", .tStr⟩], 3))] }

/-
Theorems. First the association-list facts the claim proofs share.
-/

theorem alookup_aset_self {α : Type} (l : List (String × α)) (k : String) (v : α) :
    alookup (aset l k v) k = some v := by
  induction l with
  | nil => simp [aset, alookup]
  | cons p rest ih =>
      by_cases h : p.1 = k
      · simp [aset, alookup, h]
      · simp [aset, alookup, h, ih]

theorem alookup_aset_ne {α : Type} (l : List (String × α)) (k k' : String) (v : α)
    (h : k ≠ k') : alookup (aset l k v) k' = alookup l k' := by
  induction l with
  | nil => simp [aset, alookup, h]
  | cons p rest ih =>
      by_cases hp : p.1 = k
      · simp [aset, alookup, hp, h]
      · simp [aset, alookup, hp, ih]

theorem alookup_aerase_self {α : Type} (l : List (String × α)) (k : String) :
    alookup (aerase l k) k = none := by
  induction l with
  | nil => simp [aerase, alookup]
  | cons p rest ih =>
      by_cases hp : p.1 = k
      · simpa [aerase, hp] using ih
      · simpa [aerase, alookup, hp] using ih

theorem alookup_aerase_ne {α : Type} (l : List (String × α)) (k k' : String)
    (h : k ≠ k') : alookup (aerase l k) k' = alookup l k' := by
  induction l with
  | nil => simp [aerase, alookup]
  | cons p rest ih =>
      by_cases hp : p.1 = k
      · simpa [aerase, alookup, hp, h] using ih
      · by_cases hp' : p.1 = k'
        · simp [aerase, alookup, hp, hp', Ne.symm h]
        · simpa [aerase, alookup, hp, hp'] using ih

/-- After a successful table save, a load at any later time reads the
saved collection back from the file: the save has invalidated the cache
entry. -/
theorem storageLoad_after_save (st : TableStorage) (t : String) (rows : List Rec)
    (st' : TableStorage) (d : Nat)
    (h : storageSave st t rows .success = .ok st') :
    (storageLoad { st' with now := st'.now + d } t).1 = rows ∧
    alookup st'.cache (cacheKey t) = none := by
  have hst' : st' = { st with
      files := aset st.files t rows,
      cache := aerase st.cache (cacheKey t) } := by
    simpa [storageSave] using h.symm
  subst hst'
  refine ⟨?_, alookup_aerase_self _ _⟩
  simp [storageLoad, alookup_aerase_self, storageLoad.loadFile, alookup_aset_self]

/-- C7: a successful save of a row collection for a table followed by a
load of that table, after any amount of elapsed time within the process,
yields exactly the saved collection, because the save deleted the cache
entry for the table and the load therefore reads the freshly written
file instead of any content cached before the save. -/
theorem save_then_load_round_trip (st : TableStorage) (t : String) (rows : List Rec)
    (d : Nat) :
    ∃ st', storageSave st t rows .success = .ok st' ∧
      (storageLoad { st' with now := st'.now + d } t).1 = rows ∧
      alookup st'.cache (cacheKey t) = none := by
  refine ⟨_, rfl, ?_, ?_⟩
  · exact (storageLoad_after_save st t rows _ d rfl).1
  · exact (storageLoad_after_save st t rows _ d rfl).2

/-- C2: evaluating drop_table on a database whose table t holds one
stored record shows the partial deletion the specification forbids: the
call succeeds and removes the schema entry, but the backing record
collection is still present afterwards (the deletion of table data is
left unimplemented at core.py:1056). -/
theorem drop_table_keeps_record_collection :
    (dbDropTable oneRowState "t").map
      (fun p => (p.1, alookup p.2.tables "t", alookup p.2.storage.files "t"))
      = .ok (true, none, some [recAlice]) := by
  rfl

/-- C9: metadata save is all-or-nothing over every failure point: a
clean run atomically replaces the canonical file with the new document
and leaves no temporary file; a failure during the dump or during the
replace removes the temporary artifact, raises StorageError and leaves
the canonical file exactly as it was. -/
theorem metadata_save_atomic (fs : MetaFS) (m : MetaDoc) (w : Option MetaDoc) :
    (metaSave fs m .ok = (.ok true, { canonical := some m, temp := none })) ∧
    ((metaSave fs m (.failDump w)).1 =
        .error (.storageError "Ошибка сохранения метаданных") ∧
      (metaSave fs m (.failDump w)).2.canonical = fs.canonical ∧
      (metaSave fs m (.failDump w)).2.temp = none) ∧
    ((metaSave fs m .failReplace).1 =
        .error (.storageError "Ошибка сохранения метаданных") ∧
      (metaSave fs m .failReplace).2.canonical = fs.canonical ∧
      (metaSave fs m .failReplace).2.temp = none) :=
  ⟨rfl, ⟨rfl, rfl, rfl⟩, rfl, rfl, rfl⟩

/-- C6 counterexample: Table.__init__ keeps a user-supplied column list
untouched whenever some column is already named ID, so supplying
name:str followed by ID:str leaves a table whose first column is not the
ID:int column, and supplying ID twice leaves two ID columns. -/
theorem id_column_invariant_counterexample :
    (mkTable "t" [⟨"name", DType.tStr⟩, ⟨"ID", DType.tStr⟩]).columns.head?
      = some ⟨"name", DType.tStr⟩ ∧
    ((mkTable "t2" [⟨"ID", DType.tInt⟩, ⟨"ID", DType.tInt⟩]).columns.map
        Column.name).count "ID" = 2 := by
  decide

/-- C6 as amended: when no user-supplied column is named ID, the table
synthesizes ID:int at position 0 and then has exactly one ID column;
when a column named ID is supplied, the list is kept exactly as given,
so its position, its type and its multiplicity are not enforced. -/
theorem id_column_synthesized_when_absent (name : String) (cols : List Column)
    (h : ∀ c ∈ cols, c.name ≠ "ID") :
    (mkTable name cols).columns = ⟨"ID", DType.tInt⟩ :: cols ∧
    ((mkTable name cols).columns.map Column.name).count "ID" = 1 := by
  have hany : cols.any (fun c => c.name = "ID") = false := by
    rw [List.any_eq_false]
    intro c hc
    simpa using h c hc
  have hcols : (mkTable name cols).columns = ⟨"ID", DType.tInt⟩ :: cols := by
    simp [mkTable, initColumns, hany]
  refine ⟨hcols, ?_⟩
  rw [hcols]
  have hzero : (cols.map Column.name).count "ID" = 0 := by
    rw [List.count_eq_zero]
    intro hmem
    obtain ⟨c, hc, hname⟩ := List.mem_map.mp hmem
    exact h c hc hname
  simp [List.count_cons, hzero]

/-- C6 witness: instantiating the amended statement on the column list
of create_table users name:str. -/
theorem id_column_synthesized_witness :
    (mkTable "users" [⟨"name", DType.tStr⟩]).columns
      = ⟨"ID", DType.tInt⟩ :: [⟨"name", DType.tStr⟩] ∧
    ((mkTable "users" [⟨"name", DType.tStr⟩]).columns.map Column.name).count "ID" = 1 :=
  id_column_synthesized_when_absent "users" [⟨"name", DType.tStr⟩] (by decide)

theorem handleDbErrors_eq_toOption {α : Type} (x : Except PyError α) :
    handleDbErrors x = x.toOption := by
  cases x <;> rfl

/-- C1 counterexample: on an empty database, InsertCommand.execute on a
missing table raises TableNotFoundError (a member of the defined error
taxonomy) inside the core, and the decorated execute returns None — the
error is swallowed with a printed message, not converted into a
CommandResult with success = false. -/
theorem error_boundary_counterexample :
    insertExecuteCore emptyState "users" []
      = .error (.tableNotFound "Таблица users не найдена") ∧
    insertExecute emptyState "users" [] = none ∧
    (insertExecute emptyState "users" []).isSome = false := by
  refine ⟨rfl, rfl, rfl⟩

/-- C1 as amended: no exception escapes any of the eight commands,
because handle_db_errors catches the whole taxonomy (its final handler
catches every exception); but an error makes the decorated execute
return None after printing the message, rather than a failed
CommandResult, and a refused confirmation short-circuits the destructive
commands to None as well. -/
theorem error_boundary_returns_none (st : DBState) (tn : String)
    (cdefs : List String) (vals : List Value) (conds : Option Conds)
    (setC : List (String × Value)) (whereC : Option Conds) :
    createTableExecute st tn cdefs = (createTableExecuteCore st tn cdefs).toOption ∧
    dropTableExecute true st tn = (dropTableExecuteCore st tn).toOption ∧
    dropTableExecute false st tn = none ∧
    listTablesExecute st = (listTablesExecuteCore st).toOption ∧
    infoExecute st tn = (infoExecuteCore st tn).toOption ∧
    insertExecute st tn vals = (insertExecuteCore st tn vals).toOption ∧
    selectExecute st tn conds = (selectExecuteCore st tn conds).toOption ∧
    updateExecute st tn setC whereC = (updateExecuteCore st tn setC whereC).toOption ∧
    deleteExecute true st tn whereC = (deleteExecuteCore st tn whereC).toOption ∧
    deleteExecute false st tn whereC = none := by
  refine ⟨?_, ?_, rfl, ?_, ?_, ?_, ?_, ?_, ?_, rfl⟩ <;>
    simp [createTableExecute, dropTableExecute, listTablesExecute, infoExecute,
      insertExecute, selectExecute, updateExecute, deleteExecute,
      handleDbErrors_eq_toOption]

/-- Strings recognized as false tokens are never true tokens. -/
theorem isTrueToken_of_isFalseToken (s : String) (h : isFalseToken s = true) :
    isTrueToken s = false := by
  unfold isFalseToken at h
  unfold isTrueToken
  rcases Bool.or_eq_true_iff.mp h with h' | h'
  · rcases Bool.or_eq_true_iff.mp h' with h'' | h'' <;>
      simp [decide_eq_true_eq.mp h'']
  · simp [decide_eq_true_eq.mp h']

/-- C3 counterexample: updating the bool column flag with the text
banana succeeds and silently stores false, while the insert coercion on
the same value raises the validation error — so update does not apply
the insert rules to boolean columns. -/
theorem update_bool_coercion_counterexample :
    (dbUpdate flagState "t" [("flag", .vStr "banana")] none).map
      (fun p => (p.1, (alookup p.2.storage.files "t").map
        (fun rs => rs.map (fun r => alookup r "flag"))))
      = .ok (1, some [some (.vBool false)]) ∧
    coerceInsert .tBool (.vStr "banana") "flag"
      = .error (.coercionError "banana" "bool" "flag") := by
  refine ⟨by decide, by decide⟩

/-- C3 as amended: update coerces string-column assignments and the
string assignments of integer columns with the insert rules, and an
integer coercion failure raises the validation error naming the
offending value, target type and column; but boolean-column string
assignments are mapped to membership in the true-token set, so
unrecognized tokens silently become false instead of raising, and
non-string values for integer and boolean columns are assigned without
any coercion. -/
theorem update_coercion_rules (c u pz s fs : String) (v : Value) (i j : Int)
    (b : Bool)
    (hu : parsePyInt u = none)
    (hz : parsePyInt pz = some j)
    (hT : isTrueToken s = false) (hF : isFalseToken s = false)
    (hfs : isFalseToken fs = true) :
    coerceUpdate .tStr v c = coerceInsert .tStr v c ∧
    coerceUpdate .tInt (.vStr u) c = .error (.coercionError u "int" c) ∧
    coerceInsert .tInt (.vStr u) c = .error (.coercionError u "int" c) ∧
    coerceUpdate .tInt (.vStr pz) c = .ok (.vInt j) ∧
    coerceInsert .tInt (.vStr pz) c = .ok (.vInt j) ∧
    coerceUpdate .tBool (.vStr s) c = .ok (.vBool false) ∧
    coerceInsert .tBool (.vStr s) c = .error (.coercionError s "bool" c) ∧
    coerceUpdate .tBool (.vStr fs) c = .ok (.vBool false) ∧
    coerceInsert .tBool (.vStr fs) c = .ok (.vBool false) ∧
    coerceUpdate .tInt (.vInt i) c = .ok (.vInt i) ∧
    coerceUpdate .tInt (.vBool b) c = .ok (.vBool b) ∧
    coerceInsert .tInt (.vBool b) c = .ok (.vInt (if b then 1 else 0)) := by
  have hfsT := isTrueToken_of_isFalseToken fs hfs
  refine ⟨rfl, ?_, ?_, ?_, ?_, ?_, ?_, ?_, ?_, rfl, rfl, rfl⟩ <;>
    simp [coerceUpdate, coerceInsert, pyInt, pyStr, hu, hz, hT, hF, hfs, hfsT]

/-- C3 witness: the amended statement evaluated on the column flag with
the values banana, abc, 12 and no. -/
theorem update_coercion_rules_witness :
    coerceUpdate .tStr (.vInt 3) "flag" = coerceInsert .tStr (.vInt 3) "flag" ∧
    coerceUpdate .tInt (.vStr "abc") "flag"
      = .error (.coercionError "abc" "int" "flag") ∧
    coerceInsert .tInt (.vStr "abc") "flag"
      = .error (.coercionError "abc" "int" "flag") ∧
    coerceUpdate .tInt (.vStr "12") "flag" = .ok (.vInt 12) ∧
    coerceInsert .tInt (.vStr "12") "flag" = .ok (.vInt 12) ∧
    coerceUpdate .tBool (.vStr "banana") "flag" = .ok (.vBool false) ∧
    coerceInsert .tBool (.vStr "banana") "flag"
      = .error (.coercionError "banana" "bool" "flag") ∧
    coerceUpdate .tBool (.vStr "no") "flag" = .ok (.vBool false) ∧
    coerceInsert .tBool (.vStr "no") "flag" = .ok (.vBool false) ∧
    coerceUpdate .tInt (.vInt 5) "flag" = .ok (.vInt 5) ∧
    coerceUpdate .tInt (.vBool true) "flag" = .ok (.vBool true) ∧
    coerceInsert .tInt (.vBool true) "flag" = .ok (.vInt (if true then 1 else 0)) :=
  update_coercion_rules "flag" "abc" "12" "banana" "no" (.vInt 3) 5 12 true
    (by decide) (by decide) (by decide) (by decide) (by decide)

/-- C4: the command text delete from t without a where clause does not
parse: the dispatcher hands the delete arguments to _parse_delete, whose
fewer-than-three-arguments guard rejects them with the syntax error even
though that very message brackets the where clause as optional; the
engine itself, by contrast, does delete every record when given no
conditions, as shown on a two-record table. -/
theorem delete_without_where_rejected :
    parseCommand (simpleTokenize "delete from t")
      = .error (.parseError deleteSyntaxMsg) ∧
    (dbDelete twoRowState "t" none).map
      (fun p => (p.1, alookup p.2.storage.files "t"))
      = .ok (2, some []) := by
  refine ⟨by decide, by decide⟩

theorem filterMatching_ok (cs : Conds) (data l : List Rec)
    (h : filterMatching cs data = .ok l) :
    l = data.filter (fun r => matchesConditions r cs = Except.ok true) := by
  induction data generalizing l with
  | nil =>
      simp only [filterMatching] at h
      cases h
      rfl
  | cons r rest ih =>
      cases hm : matchesConditions r cs with
      | error e => simp [filterMatching, hm, bind, Except.bind] at h
      | ok b =>
          cases hk : filterMatching cs rest with
          | error e => simp [filterMatching, hm, hk, bind, Except.bind] at h
          | ok kept =>
              simp only [filterMatching, hm, hk, bind, Except.bind,
                Except.ok.injEq] at h
              subst h
              cases b with
              | true => simp [List.filter_cons, hm, ih kept hk]
              | false => simp [List.filter_cons, hm, ih kept hk]

theorem matchesConditions_missing_column (r : Rec) (col : String) (spec : CondSpec)
    (hmiss : alookup r col = none) :
    ∀ (pre post : Conds) (b : Bool), matchesConditions r pre = .ok b →
      matchesConditions r (pre ++ (col, spec) :: post) = .ok false := by
  intro pre
  induction pre with
  | nil =>
      intro post b _
      simp [matchesConditions, hmiss]
  | cons hd pre' ih =>
      obtain ⟨c0, s0⟩ := hd
      intro post b hpre
      simp only [matchesConditions] at hpre
      rw [List.cons_append]
      simp only [matchesConditions]
      cases h0 : alookup r c0 with
      | none => simp [h0]
      | some a =>
          simp only [h0, bind, Except.bind] at hpre
          cases hc : compareValues a s0.op s0.value with
          | error e => simp [hc] at hpre
          | ok bc =>
              simp only [hc] at hpre
              simp only [h0, bind, Except.bind, hc]
              cases bc with
              | true => simpa using ih post b (by simpa using hpre)
              | false => simp

/-- C8: a select with a non-empty condition set retains exactly the
loaded records on which every condition evaluates to a match
(conjunction); and a record lacking the column named in some condition
is a non-match — the missing column produces ok false, not an error,
whatever conditions follow it. -/
theorem select_retains_conjunction_matches (stor : TableStorage)
    (cols : List Column) (t : String) (cs pre post : Conds) (col : String)
    (spec : CondSpec) (b : Bool) (rows : List Rec) (stor' : TableStorage) (r : Rec)
    (hne : cs ≠ [])
    (hsel : tableSelect stor cols t (some cs) = .ok (rows, stor'))
    (hsplit : cs = pre ++ (col, spec) :: post)
    (hmiss : alookup r col = none)
    (hpre : matchesConditions r pre = .ok b) :
    rows = (storageLoad stor t).1.filter
      (fun rc => matchesConditions rc cs = Except.ok true) ∧
    matchesConditions r cs = .ok false := by
  constructor
  · cases cs with
    | nil => exact absurd rfl hne
    | cons c cs' =>
        simp only [tableSelect] at hsel
        cases hf : filterMatching (c :: cs') (storageLoad stor t).1 with
        | error e => simp [hf, bind, Except.bind] at hsel
        | ok fl =>
            cases hv : validateAll cols fl with
            | error e => simp [hf, hv, bind, Except.bind] at hsel
            | ok u =>
                simp only [hf, hv, bind, Except.bind, Except.ok.injEq,
                  Prod.mk.injEq] at hsel
                rw [← hsel.1]
                exact filterMatching_ok _ _ _ hf
  · rw [hsplit]
    exact matchesConditions_missing_column r col spec hmiss pre post b hpre

/-- C8 witness: selecting from the people table with the condition
age>=30 retains exactly the matching record, and the empty record, which
lacks the age column, is a non-match without an error. -/
theorem select_retains_witness :
    [recAge30] = (storageLoad ageStorage "people").1.filter
      (fun rc => matchesConditions rc ageConds = Except.ok true) ∧
    matchesConditions [] ageConds = .ok false :=
  select_retains_conjunction_matches ageStorage ageTable.columns "people"
    ageConds [] [] "age" ⟨">=", .vInt 30⟩ true [recAge30] ageStorageLoaded []
    (by decide) (by decide) rfl rfl rfl

theorem applySet_filter_present (cols : List Column) (setC : List (String × Value)) :
    ∀ r, applySet cols setC r
      = applySet cols (setC.filter (fun p => (columnLookup cols p.1).isSome)) r := by
  induction setC with
  | nil => intro r; rfl
  | cons p rest ih =>
      intro r
      cases hp : columnLookup cols p.1 with
      | none =>
          simp only [applySet, List.foldlM, hp, List.filter_cons, Option.isSome_none,
            Bool.false_eq_true, if_false, bind, Except.bind]
          exact ih r
      | some colv =>
          simp only [applySet, List.foldlM, hp, List.filter_cons, Option.isSome_some,
            if_true, bind, Except.bind]
          cases hc : coerceUpdate colv.dtype p.2 p.1 with
          | error e => rfl
          | ok v => exact ih (aset r p.1 v)

theorem applySet_all_absent (cols : List Column) (setC : List (String × Value))
    (hab : ∀ p ∈ setC, columnLookup cols p.1 = none) :
    ∀ r, applySet cols setC r = .ok r := by
  induction setC with
  | nil => intro r; rfl
  | cons p rest ih =>
      intro r
      have hp : columnLookup cols p.1 = none := hab p (by simp)
      simp only [applySet, List.foldlM, hp, bind, Except.bind]
      exact ih (fun q hq => hab q (by simp [hq])) r

theorem updateRecords_congr (cols : List Column)
    (setC setC' : List (String × Value)) (whereC : Option Conds)
    (h : ∀ r, applySet cols setC r = applySet cols setC' r) :
    ∀ data, updateRecords cols setC whereC data
      = updateRecords cols setC' whereC data := by
  intro data
  induction data with
  | nil => rfl
  | cons r rest ih =>
      simp only [updateRecords, h r, ih]

theorem updateRecords_all_absent (cols : List Column)
    (setC : List (String × Value)) (whereC : Option Conds)
    (hab : ∀ p ∈ setC, columnLookup cols p.1 = none) :
    ∀ data, (∀ r ∈ data, ∃ bb, rowSelected whereC r = .ok bb) →
      updateRecords cols setC whereC data
        = .ok (data, (data.filter (fun r => rowSelected whereC r = Except.ok true)).length) := by
  intro data
  induction data with
  | nil => intro _; rfl
  | cons r rest ih =>
      intro hsel
      obtain ⟨bb, hbb⟩ := hsel r (by simp)
      have hrest := ih (fun q hq => hsel q (by simp [hq]))
      simp only [updateRecords, hbb, bind, Except.bind,
        applySet_all_absent cols setC hab r, hrest, List.filter_cons]
      cases bb with
      | true => simp [hbb]
      | false => simp [hbb]

/-- C10: assignments of set_map columns absent from the schema are
skipped silently — an update behaves exactly as if its set_map were
filtered down to the present columns — and when every assignment names
an absent column the update still succeeds, counts every row matching
the conditions, and persists the (unchanged) collection exactly when
that count is positive. -/
theorem update_skips_absent_columns (st : DBState) (t : String) (tbl : Table)
    (setC setC0 : List (String × Value)) (whereC : Option Conds)
    (htbl : alookup st.tables t = some tbl)
    (habsent : ∀ p ∈ setC0, columnLookup tbl.columns p.1 = none)
    (hsel : ∀ r ∈ (storageLoad st.storage t).1, ∃ bb, rowSelected whereC r = .ok bb) :
    dbUpdate st t setC whereC
      = dbUpdate st t (setC.filter (fun p => (columnLookup tbl.columns p.1).isSome))
          whereC ∧
    ∃ cnt st',
      dbUpdate st t setC0 whereC = .ok (cnt, st') ∧
      cnt = ((storageLoad st.storage t).1.filter
              (fun r => rowSelected whereC r = Except.ok true)).length ∧
      (0 < cnt → alookup st'.storage.files t = some ((storageLoad st.storage t).1) ∧
                 alookup st'.storage.cache (cacheKey t) = none) ∧
      (cnt = 0 → st'.storage = (storageLoad st.storage t).2) := by
  constructor
  · simp only [dbUpdate, getTable, htbl, bind, Except.bind]
    rw [updateRecords_congr tbl.columns setC _ whereC
      (applySet_filter_present tbl.columns setC) (storageLoad st.storage t).1]
  · have hupd := updateRecords_all_absent tbl.columns setC0 whereC habsent
      (storageLoad st.storage t).1 hsel
    by_cases hpos : 0 < ((storageLoad st.storage t).1.filter
        (fun r => rowSelected whereC r = Except.ok true)).length
    · refine ⟨_, { st with storage :=
        { (storageLoad st.storage t).2 with
          files := aset (storageLoad st.storage t).2.files t (storageLoad st.storage t).1,
          cache := aerase (storageLoad st.storage t).2.cache (cacheKey t) } },
        ?_, rfl, ?_, ?_⟩
      · simp only [dbUpdate, getTable, htbl, bind, Except.bind, hupd, storageSave,
          if_pos hpos]
      · intro _
        exact ⟨alookup_aset_self _ _ _, alookup_aerase_self _ _⟩
      · intro hzero
        exact absurd hzero (Nat.pos_iff_ne_zero.mp hpos)
    · refine ⟨_, { st with storage := (storageLoad st.storage t).2 }, ?_, rfl, ?_, ?_⟩
      · simp only [dbUpdate, getTable, htbl, bind, Except.bind, hupd, if_neg hpos]
      · intro hp
        exact absurd hp hpos
      · intro _
        rfl

/-- C10 witness: updating table t through a set_map whose only column,
ghost, is absent from the schema succeeds, counts the one matching
record and persists the unchanged collection. -/
theorem update_skips_absent_witness :
    dbUpdate oneRowState "t" [("name", .vStr "x"), ("ghost", .vInt 9)] none
      = dbUpdate oneRowState "t"
          ([("name", .vStr "x"), ("ghost", .vInt 9)].filter
            (fun p => (columnLookup nameTable.columns p.1).isSome)) none ∧
    ∃ cnt st',
      dbUpdate oneRowState "t" [("ghost", .vInt 9)] none = .ok (cnt, st') ∧
      cnt = ((storageLoad oneRowState.storage "t").1.filter
              (fun r => rowSelected none r = Except.ok true)).length ∧
      (0 < cnt →
        alookup st'.storage.files "t" = some ((storageLoad oneRowState.storage "t").1) ∧
        alookup st'.storage.cache (cacheKey "t") = none) ∧
      (cnt = 0 → st'.storage = (storageLoad oneRowState.storage "t").2) :=
  update_skips_absent_columns oneRowState "t" nameTable
    [("name", .vStr "x"), ("ghost", .vInt 9)] [("ghost", .vInt 9)] none
    (by decide) (by decide) (fun r _ => ⟨true, rfl⟩)

theorem foldl_coerce_id (v0 : Value) :
    ∀ (pairs : List (Column × Value)) (acc r : Rec),
      (∀ p ∈ pairs, p.1.name ≠ "ID") →
      alookup acc "ID" = some v0 →
      (pairs.foldlM
        (fun (acc : Rec) (cv : Column × Value) => do
          let v ← coerceInsert cv.1.dtype cv.2 cv.1.name
          pure (aset acc cv.1.name v)) acc) = .ok r →
      alookup r "ID" = some v0 := by
  intro pairs
  induction pairs with
  | nil =>
      intro acc r _ hacc h
      simp only [List.foldlM] at h
      cases h
      exact hacc
  | cons p rest ih =>
      intro acc r hn hacc h
      simp only [List.foldlM, bind, Except.bind, pure, Except.pure] at h
      cases hc : coerceInsert p.1.dtype p.2 p.1.name with
      | error e => simp [hc] at h
      | ok v =>
          simp only [hc] at h
          refine ih (aset acc p.1.name v) r (fun q hq => hn q (by simp [hq])) ?_ h
          rw [alookup_aset_ne _ _ _ _ (hn p (by simp))]
          exact hacc

theorem validateRowData_id (tbl : Table) (values : List Value) (r : Rec)
    (hnodup : ∀ c ∈ tbl.columns.drop 1, c.name ≠ "ID")
    (h : validateRowData tbl values = .ok r) :
    alookup r "ID" = some (.vInt tbl.nextId) := by
  simp only [validateRowData] at h
  by_cases hlen : values.length = (tbl.columns.drop 1).length
  · rw [if_neg (by simpa using hlen)] at h
    refine foldl_coerce_id (.vInt tbl.nextId) ((tbl.columns.drop 1).zip values) _ r
      (fun p hp => hnodup p.1 (List.of_mem_zip (a := p.1) (b := p.2) hp).1)
      (by simp [alookup]) h
  · rw [if_pos (by simpa using hlen)] at h
    cases h

theorem dbInsert_step (st : DBState) (t : String) (tbl : Table) (vs : List Value)
    (idv : Value) (st₁ : DBState)
    (htbl : alookup st.tables t = some tbl)
    (hnodup : ∀ c ∈ tbl.columns.drop 1, c.name ≠ "ID")
    (h : dbInsert st t vs = .ok (idv, st₁)) :
    idv = .vInt tbl.nextId ∧
    st₁.tables = aset st.tables t { tbl with nextId := tbl.nextId + 1 } ∧
    ∃ row, (storageLoad st₁.storage t).1 = (storageLoad st.storage t).1 ++ [row] ∧
      alookup row "ID" = some (.vInt tbl.nextId) := by
  simp only [dbInsert, getTable, htbl, bind, Except.bind] at h
  cases hv : validateRowData tbl vs with
  | error e => simp [hv] at h
  | ok rowData =>
      have hid := validateRowData_id tbl vs rowData hnodup hv
      simp only [hv, hid, bind, Except.bind, pure, Except.pure, storageSave,
        Except.ok.injEq, Prod.mk.injEq] at h
      obtain ⟨hidv, hst⟩ := h
      refine ⟨hidv.symm, ?_, rowData, ?_, hid⟩
      · rw [← hst]
      · rw [← hst]
        simp only [storageLoad, storageLoad.loadFile, alookup_aerase_self,
          alookup_aset_self]

theorem range_map_succ_shift {α : Type} (f : Int → α) (k : Int) (n : Nat) :
    (List.range (n + 1)).map (fun (i : Nat) => f (k + (i : Int)))
      = f k :: (List.range n).map (fun (i : Nat) => f ((k + 1) + (i : Int))) := by
  rw [List.range_succ_eq_map, List.map_cons, List.map_map]
  refine congrArg₂ List.cons (by norm_num) ?_
  refine List.map_congr_left (fun i _ => ?_)
  simp only [Function.comp_apply]
  refine congrArg f ?_
  push_cast
  ring

theorem dbInsertMany_ids (t : String) :
    ∀ (vss : List (List Value)) (st : DBState) (tbl : Table) (ids : List Value)
      (st' : DBState),
      alookup st.tables t = some tbl →
      (∀ c ∈ tbl.columns.drop 1, c.name ≠ "ID") →
      dbInsertMany t st vss = .ok (ids, st') →
      ids = (List.range vss.length).map
        (fun (i : Nat) => Value.vInt (tbl.nextId + (i : Int))) ∧
      alookup st'.tables t = some { tbl with nextId := tbl.nextId + vss.length } ∧
      ∃ newRows,
        (storageLoad st'.storage t).1 = (storageLoad st.storage t).1 ++ newRows ∧
        newRows.map (fun r => alookup r "ID")
          = (List.range vss.length).map
              (fun (i : Nat) => some (Value.vInt (tbl.nextId + (i : Int)))) := by
  intro vss
  induction vss with
  | nil =>
      intro st tbl ids st' htbl _ h
      simp only [dbInsertMany, Except.ok.injEq, Prod.mk.injEq] at h
      obtain ⟨hids, hst⟩ := h
      subst hst
      refine ⟨hids.symm, ?_, [], by simp, by simp⟩
      simpa using htbl
  | cons vs vss' ih =>
      intro st tbl ids st' htbl hnodup h
      simp only [dbInsertMany, bind, Except.bind] at h
      cases hi : dbInsert st t vs with
      | error e => simp [hi] at h
      | ok p =>
          obtain ⟨idv, st₁⟩ := p
          obtain ⟨hidv, htab₁, row, hload₁, hrowid⟩ :=
            dbInsert_step st t tbl vs idv st₁ htbl hnodup hi
          have htbl₁ : alookup st₁.tables t
              = some { tbl with nextId := tbl.nextId + 1 } := by
            rw [htab₁]; exact alookup_aset_self _ _ _
          simp only [hi] at h
          cases hm : dbInsertMany t st₁ vss' with
          | error e => simp [hm] at h
          | ok q =>
              obtain ⟨ids', st₂⟩ := q
              simp only [hm, Except.ok.injEq, Prod.mk.injEq] at h
              obtain ⟨hids, hst⟩ := h
              subst hst
              obtain ⟨hids', htab₂, newRows', hload₂, hrowids'⟩ :=
                ih st₁ { tbl with nextId := tbl.nextId + 1 } ids' st₂ htbl₁ hnodup hm
              refine ⟨?_, ?_, row :: newRows', ?_, ?_⟩
              · rw [← hids, List.length_cons,
                  range_map_succ_shift Value.vInt tbl.nextId vss'.length]
                exact congrArg₂ List.cons hidv (by simpa using hids')
              · rw [htab₂, List.length_cons]
                refine congrArg some ?_
                congr 1
                push_cast
                ring
              · rw [hload₂, hload₁, List.append_assoc]
                rfl
              · rw [List.map_cons, List.length_cons,
                  range_map_succ_shift (fun x => some (Value.vInt x)) tbl.nextId
                    vss'.length]
                exact congrArg₂ List.cons hrowid (by simpa using hrowids')

/-- C5: for any run of successful inserts into a freshly created table
(next_id 1, no data file, no cache entry, no user column named ID), the
returned IDs are exactly 1..N in insertion order; afterwards next_id has
been incremented once per insert and the persisted collection holds the
appended rows carrying exactly those IDs. -/
theorem insert_ids_sequential (st : DBState) (t : String) (tbl : Table)
    (vss : List (List Value)) (ids : List Value) (st' : DBState)
    (htbl : alookup st.tables t = some tbl)
    (hfresh : tbl.nextId = 1)
    (hnodup : ∀ c ∈ tbl.columns.drop 1, c.name ≠ "ID")
    (hnofile : alookup st.storage.files t = none)
    (hnocache : alookup st.storage.cache (cacheKey t) = none)
    (hrun : dbInsertMany t st vss = .ok (ids, st')) :
    ids = (List.range vss.length).map (fun (i : Nat) => Value.vInt (1 + (i : Int))) ∧
    alookup st'.tables t = some { tbl with nextId := 1 + vss.length } ∧
    ((storageLoad st'.storage t).1).map (fun r => alookup r "ID")
      = (List.range vss.length).map (fun (i : Nat) => some (Value.vInt (1 + (i : Int)))) := by
  obtain ⟨hids, htab, newRows, hload, hrowids⟩ :=
    dbInsertMany_ids t vss st tbl ids st' htbl hnodup hrun
  have hempty : (storageLoad st.storage t).1 = [] := by
    simp [storageLoad, hnocache, storageLoad.loadFile, hnofile]
  refine ⟨by rw [hids, hfresh], by rw [htab, hfresh], ?_⟩
  rw [hload, hempty, List.nil_append, hrowids, hfresh]

/-- C5 witness: two inserts into the fresh users table return the IDs
1 and 2, leave next_id at 3 and persist rows carrying exactly those
IDs. -/
theorem insert_ids_sequential_witness :
    ([Value.vInt 1, Value.vInt 2] : List Value)
      = (List.range 2).map (fun (i : Nat) => Value.vInt (1 + (i : Int))) ∧
    alookup usersFinalState.tables "users"
      = some { usersTable with nextId := 1 + ((2 : Nat) : Int) } ∧
    ((storageLoad usersFinalState.storage "users").1).map (fun r => alookup r "ID")
      = (List.range 2).map (fun (i : Nat) => some (Value.vInt (1 + (i : Int)))) :=
  insert_ids_sequential usersState "users" usersTable
    [[.vStr "Alice"], [.vStr "Bob"]] [Value.vInt 1, Value.vInt 2] usersFinalState
    (by decide) (by decide) (by decide) (by decide) (by decide) (by decide)

end PrimitiveDB
